import Mathlib

/-!
Verification of the modern-protocol play layer of the Cobblestone server
(`src/server/deno/networking/minecraft/playPackets.ts`) and of the player
connection path of the server core (`src/unnamed/part_000`, class `Server`).

The serverbound packet handlers and the connection-handler methods are
embedded as pure functions.  Mutations requested from the external
world/player collaborators and packets queued on the transport are both
recorded in an output list of `Effect`s, in the order the source performs
them.  JavaScript numbers that carry block coordinates are embedded as
`Int`, packet counters and identifiers as `Nat`, and the double/float
values of movement packets as `ℚ` (the arithmetic the handlers perform on
them is exactly mirrored; float rounding is not modelled).

Collaborators whose sources are not part of the repository snapshot
(`world.ts`, `translationMap.ts`) are modelled from the spec where a claim
depends on them; each such definition carries a doc comment starting with
`Modelled from the spec:`.
-/

namespace Cobblestone

/-- Truncation toward zero, the rounding JavaScript applies when computing
the remainder operator `%` on numbers. -/
def jsTrunc (q : ℚ) : ℤ :=
  if q < 0 then ⌈q⌉ else ⌊q⌋

/-- The JavaScript remainder operator `a % b`: `a - b * trunc(a / b)`
(sign follows the dividend).  For a nonnegative dividend and positive
divisor it agrees with the mathematical modulus. -/
def jsRem (a b : ℚ) : ℚ :=
  a - b * (jsTrunc (a / b) : ℚ)

/-- Modelled from the spec: `barrierId`, the reserved boundary block-state
identifier exported by `translationMap.ts` (the file is not part of the
snapshot; only its import is).  The spec fixes only that it is a reserved
protocol block-state used for cells outside the world; in particular it is
distinct from the air state `0` (the value the code's `?? 0` fallback
produces).  A representative concrete value is used. -/
def barrierId : Nat := 7754

/-- The world collaborator interface used by the play layer: a size
(`getSize()` returns `[width, height, depth]`), a block-id lookup, the
players present in the world (by numeric entity id) and the spawn point. -/
structure World where
  width : Nat
  height : Nat
  depth : Nat
  blockId : Int → Int → Int → Nat
  players : List Nat
  spawnX : ℚ
  spawnY : ℚ
  spawnZ : ℚ
  spawnYaw : ℚ
  spawnPitch : ℚ

/-- Modelled from the spec: `World.isInBounds` lives in `world.ts`, which
is not part of the snapshot.  Per the spec a position is in bounds exactly
when each coordinate lies inside the authoritative world extent
`[0, size)` on its axis. -/
def World.isInBounds (w : World) (x y z : Int) : Bool :=
  decide (0 ≤ x ∧ x < (w.width : Int) ∧ 0 ≤ y ∧ y < (w.height : Int) ∧
    0 ≤ z ∧ z < (w.depth : Int))

/-- The player collaborator as seen from the play layer: its world, stored
position and rotation, connection flag, numeric entity id, and the outcome
of the `_action_block_break` validation (`true` when the collaborator
performs the mutation, `false` when it rejects it). -/
structure Player where
  numId : Nat
  world : World
  posX : ℚ
  posY : ℚ
  posZ : ℚ
  yaw : ℚ
  pitch : ℚ
  isConnected : Bool
  breakOk : Int → Int → Int → Bool

/-- The per-session delayed-action state (`handler.data.minePos` /
`handler.data.mineTime`). -/
structure SessionData where
  minePos : Option (Int × Int × Int)
  mineTime : Option Nat
  deriving DecidableEq

/-- Clientbound packets built by the `packet` catalog, carrying the
payload fields the claims are about.  Chunk-column payloads are kept in
`ColumnPacket` (the sections hold functions, so they live outside this
decidable-equality type and `chunkColumn` records only the column
coordinates here). -/
inductive Packet where
  | setBlock (x y z : Int) (blockState : Nat)
  | worldEvent (id : Nat) (x y z : Int) (data : Option Nat) (noDistance : Bool)
  | acknowledgeBlockChange (sequence : Nat)
  | keepAlive (time : Nat)
  | disconnect (text : String)
  | joinGame
  | respawn
  | updateViewDistance (n : Nat)
  | updateTickDistance (n : Nat)
  | updateViewPos (x z : ℚ)
  | chunkColumn (cx cz : Int)
  | playerListAdd (id : Nat)
  | spawnPlayer (id : Nat)
  | teleport (id : Nat) (x y z : ℚ) (yaw pitch : ℚ)
  | rotateHead (id : Nat) (yaw : ℚ)
  | abilities
  deriving DecidableEq

/-- The observable actions of a handler, in source order: a packet queued
on this session's transport, an invocation of a player-collaborator
mutation, or a transport/teardown step. -/
inductive Effect where
  | packet (p : Packet)
  | blockBreak (x y z : Int)
  | blockPlace (x y z : Int) (numId : Nat)
  | move (x y z yaw pitch : ℚ)
  | playerDisconnect (id : Nat)
  | close
  deriving DecidableEq

/-- `patchText` (playPackets.ts:607): replaces every `&` with the section
sign before wrapping the text in a chat holder.  `replaceAll` with a
single-character pattern is a character map. -/
def patchText (text : String) : String :=
  String.mk (text.data.map (fun c => if c = '&' then '§' else c))

/-- The `directions` table (playPackets.ts:23): offsets for face ids
0..5, in source order -Y, +Y, -Z, +Z, -X, +X. -/
def directions : List (Int × Int × Int) :=
  [(0, -1, 0), (0, 1, 0), (0, 0, -1), (0, 0, 1), (-1, 0, 0), (1, 0, 0)]

/-- The Player Action handler `playPackets[0x1c]` (playPackets.ts:48).
`status` and the position come from the packet; `now` is `Date.now()` at
receipt.  Status 0 records the pending delayed action, status 1 clears
it, status 2 resolves the dig: inside bounds the block-break collaborator
is invoked (a world-event packet with the pre-break translated state
follows on success; the source indexes `cBlockToBlockState` directly
here, so an unmapped pre-break id would put `undefined` on the wire,
embedded as the untouched `Option`); outside bounds (also when no player
is attached, since `handler.player?.world` is undefined and falsy) a
set-block packet forces `barrierId`; both branches then clear the
pending action.  Unknown statuses do nothing. -/
def handlePlayerAction (tmap : Nat → Option Nat) (player : Option Player)
    (d : SessionData) (now : Nat) (status : Nat) (pos : Int × Int × Int) :
    SessionData × List Effect :=
  match status with
  | 0 => ({ minePos := some pos, mineTime := some now }, [])
  | 1 => ({ minePos := none, mineTime := none }, [])
  | 2 =>
    let effs : List Effect :=
      match player with
      | some p =>
        if p.world.isInBounds pos.1 pos.2.1 pos.2.2 then
          if p.breakOk pos.1 pos.2.1 pos.2.2 then
            [Effect.blockBreak pos.1 pos.2.1 pos.2.2,
             Effect.packet (Packet.worldEvent 2001 pos.1 pos.2.1 pos.2.2
               (tmap (p.world.blockId pos.1 pos.2.1 pos.2.2)) false)]
          else
            [Effect.blockBreak pos.1 pos.2.1 pos.2.2]
        else
          [Effect.packet (Packet.setBlock pos.1 pos.2.1 pos.2.2 barrierId)]
      | none =>
        [Effect.packet (Packet.setBlock pos.1 pos.2.1 pos.2.2 barrierId)]
    ({ minePos := none, mineTime := none }, effs)
  | _ => (d, [])

/-- The Set Player Position handler `playPackets[0x13]`
(playPackets.ts:83): forwards the read coordinates together with the
player's current yaw and pitch. -/
def handleSetPlayerPosition (player : Option Player) (x y z : ℚ) : List Effect :=
  match player with
  | some p => [Effect.move x y z p.yaw p.pitch]
  | none => []

/-- The Set Player Position and Rotation handler `playPackets[0x14]`
(playPackets.ts:88): forwards the read coordinates and renormalizes the
degree rotation into 256-unit angles,
yaw via `(((f + 180) % 360) / 360) * 256` and pitch via
`(f / 360) * 256`, with `%` the JavaScript remainder. -/
def handleSetPlayerPositionAndRotation (player : Option Player)
    (x y z yawDeg pitchDeg : ℚ) : List Effect :=
  match player with
  | some _ =>
    [Effect.move x y z (jsRem (yawDeg + 180) 360 / 360 * 256)
      (pitchDeg / 360 * 256)]
  | none => []

/-- The Set Player Rotation handler `playPackets[0x15]`
(playPackets.ts:99): forwards the player's current position with the
renormalized rotation read from the packet. -/
def handleSetPlayerRotation (player : Option Player) (yawDeg pitchDeg : ℚ) :
    List Effect :=
  match player with
  | some p =>
    [Effect.move p.posX p.posY p.posZ (jsRem (yawDeg + 180) 360 / 360 * 256)
      (pitchDeg / 360 * 256)]
  | none => []

/-- The Set Creative Mode Slot handler `playPackets[0x2a]`
(playPackets.ts:115): `slot` is the short read from the packet, `present`
the boolean, `id` the item id read when present.  Only slots with
`slot < 50 && slot >= 0` are written; a present item stores its id and an
absent one stores 0. -/
def handleSetCreativeModeSlot (inventory : Int → Nat) (slot : Int)
    (present : Bool) (id : Nat) : Int → Nat :=
  if slot < 50 ∧ 0 ≤ slot then
    fun i => if i = slot then (if present then id else 0) else inventory i
  else
    inventory

namespace ModernConnectionHandler

/-- `ModernConnectionHandler.setBlock` (playPackets.ts:285): translates
the internal block id through `cBlockToBlockState` with the `?? 0`
fallback and queues a set-block packet. -/
def setBlock (tmap : Nat → Option Nat) (x y z : Int) (block : Nat) :
    List Effect :=
  [Effect.packet (Packet.setBlock x y z ((tmap block).getD 0))]

/-- The keep-alive prefix of a tick (playPackets.ts:172): a keep-alive
packet is queued when the wall-clock millisecond count is even. -/
def keepAliveEffects (now : Nat) : List Effect :=
  if now % 2 = 0 then [Effect.packet (Packet.keepAlive now)] else []

/-- `ModernConnectionHandler.tick` (playPackets.ts:170): queues the
keep-alive prefix, then, when a pending delayed action is recorded
(`minePos` truthy, `mineTime` truthy — note `0` is falsy in JavaScript)
and older than 200ms, resolves the dig with the same code the finish-dig
branch of `playPackets[0x1c]` runs, and clears the pending action. -/
def tick (tmap : Nat → Option Nat) (player : Option Player) (d : SessionData)
    (now : Nat) : SessionData × List Effect :=
  let keep : List Effect := keepAliveEffects now
  match d.minePos, d.mineTime with
  | some pos, some t =>
    if t ≠ 0 ∧ 200 < (now : Int) - (t : Int) then
      let effs : List Effect :=
        match player with
        | some p =>
          if p.world.isInBounds pos.1 pos.2.1 pos.2.2 then
            if p.breakOk pos.1 pos.2.1 pos.2.2 then
              [Effect.blockBreak pos.1 pos.2.1 pos.2.2,
               Effect.packet (Packet.worldEvent 2001 pos.1 pos.2.1 pos.2.2
                 (tmap (p.world.blockId pos.1 pos.2.1 pos.2.2)) false)]
            else
              [Effect.blockBreak pos.1 pos.2.1 pos.2.2]
          else
            [Effect.packet (Packet.setBlock pos.1 pos.2.1 pos.2.2 barrierId)]
        | none =>
          [Effect.packet (Packet.setBlock pos.1 pos.2.1 pos.2.2 barrierId)]
      ({ minePos := none, mineTime := none }, keep ++ effs)
    else
      (d, keep)
  | _, _ => (d, keep)

/-- `ModernConnectionHandler.disconnect` (playPackets.ts:293): with a
still-connected player the teardown is delegated to the player
collaborator; otherwise a disconnect packet with the patched message is
sent and the transport is closed. -/
def disconnect (player : Option Player) (message : String) : List Effect :=
  match player with
  | some p =>
    if p.isConnected then
      [Effect.playerDisconnect p.numId]
    else
      [Effect.packet (Packet.disconnect (patchText message)), Effect.close]
  | none =>
    [Effect.packet (Packet.disconnect (patchText message)), Effect.close]

end ModernConnectionHandler

/-- The integer sequence an ascending JavaScript loop
`for (let c = -1; c < bound16 / 16 + something; c++)` runs through, after
clearing denominators: the ascending integers `c` with `-1 ≤ c` and
`16 * c < bound` (for the column loops of `sendWorld`, `bound` is
`width + 16` resp. `depth + 16`, since `c < w/16 + 1 ↔ 16c < w + 16`; for
the section loop it is `height`, since `c < h/16 ↔ 16c < h`). -/
def chunkRange (bound : Nat) : List Int :=
  List.map (fun i : Nat => (i : Int) - 1) (List.range ((bound + 15) / 16 + 1))

/-- One cell of the chunk section built at column `(cx, cz)` and section
index `cy` by `sendWorld` (playPackets.ts:229): an in-bounds cell holds
the `cBlockToBlockState` translation of the world's block id with the
`?? 0` fallback, an out-of-bounds cell holds `barrierId`. -/
def sectionBlocks (tmap : Nat → Option Nat) (world : World)
    (cx cy cz : Int) (x y z : Nat) : Nat :=
  if world.isInBounds (cx * 16 + x) (cy * 16 + y) (cz * 16 + z) then
    (tmap (world.blockId (cx * 16 + x) (cy * 16 + y) (cz * 16 + z))).getD 0
  else
    barrierId

/-- A chunk-column packet of `sendWorld` (playPackets.ts:221): the column
coordinates written in the header and the encoded sections in the order
the `cy` loop pushes them (bottom-up, starting at `cy = -1`). -/
structure ColumnPacket where
  cx : Int
  cz : Int
  sections : List (Nat → Nat → Nat → Nat)

/-- The chunk-column packets streamed by the nested loops of
`ModernConnectionHandler.sendWorld` (playPackets.ts:221-272):
`cx` runs `-1 ≤ cx < width/16 + 1`, `cz` runs `-1 ≤ cz < depth/16 + 1`,
and for each column the sections run `-1 ≤ cy < height/16`. -/
def sendWorldColumns (tmap : Nat → Option Nat) (world : World) :
    List ColumnPacket :=
  (chunkRange (world.width + 16)).flatMap (fun cx =>
    (chunkRange (world.depth + 16)).map (fun cz =>
      { cx := cx, cz := cz,
        sections := (chunkRange world.height).map
          (fun cy => sectionBlocks tmap world cx cy cz) }))

/-- `ModernConnectionHandler.sendWorld` (playPackets.ts:205): fails with
the thrown string when no player has been set (nothing has been sent at
that point); otherwise streams the join/respawn metadata, the view hints
(`Math.ceil(max(width, depth) / 32 + 2)` and the unrounded
`width / 32`, `depth / 32` view position), one packet per chunk column,
then spawns the already-present players, registers the arrival in the
player list, teleports it to the spawn point (yaw offset by
`(yaw + 128) % 256` as in `sendTeleport`) and grants abilities.  The
pacing `sleep` calls are cooperative yields and do not affect the packet
sequence. -/
def sendWorld (tmap : Nat → Option Nat) (player : Option Player)
    (world : World) : Except String (List Packet) :=
  match player with
  | none => Except.error "Player is not set!"
  | some p =>
    let viewDist : Nat := (max world.width world.depth + 31) / 32 + 2
    let spawnYawWire : ℚ := jsRem (world.spawnYaw + 128) 256
    Except.ok
      ([Packet.joinGame, Packet.respawn,
        Packet.updateViewDistance viewDist, Packet.updateTickDistance viewDist,
        Packet.updateViewPos ((world.width : ℚ) / 32) ((world.depth : ℚ) / 32)]
       ++ (sendWorldColumns tmap world).map (fun c => Packet.chunkColumn c.cx c.cz)
       ++ world.players.flatMap (fun pid =>
            if pid ≠ p.numId then
              [Packet.playerListAdd pid, Packet.spawnPlayer pid]
            else [])
       ++ [Packet.playerListAdd p.numId,
           Packet.teleport p.numId world.spawnX world.spawnY world.spawnZ
             spawnYawWire world.spawnPitch,
           Packet.rotateHead p.numId spawnYawWire,
           Packet.abilities])

/-- The Use Item On handler `playPackets[0x30]` (playPackets.ts:131).
The held item is `inventory[inventorySlot + 36]`.  When it is nonzero the
adjacent cell is the clicked position plus the `directions` entry of the
face id (an out-of-range face id makes `directions[faceId]` undefined and
the subsequent member access throw, embedded as the error case); a held
item mapping through `itemToCBlock` invokes the block-place collaborator
at the adjacent cell, any other nonzero item re-sends the server's
authoritative block there through `ModernConnectionHandler.setBlock`, and
in both cases the sequence number is acknowledged.  A held item equal to
zero skips the whole body, including the acknowledgement. -/
def handleUseItemOn (tmap itemToCBlock : Nat → Option Nat)
    (player : Option Player) (inventory : Int → Nat) (inventorySlot : Int)
    (pos : Int × Int × Int) (faceId : Nat) (sequence : Nat) :
    Except String (List Effect) :=
  let item := inventory (inventorySlot + 36)
  if item ≠ 0 then
    match directions.get? faceId with
    | none => Except.error "TypeError: face is undefined"
    | some face =>
      let ax := pos.1 + face.1
      let ay := pos.2.1 + face.2.1
      let az := pos.2.2 + face.2.2
      match itemToCBlock item with
      | some numId =>
        ((match player with
          | some _ => [Effect.blockPlace ax ay az numId]
          | none => []) ++
         [Effect.packet (Packet.acknowledgeBlockChange sequence)]) |> Except.ok
      | none =>
        ((match player with
          | some p => ModernConnectionHandler.setBlock tmap ax ay az
              (p.world.blockId ax ay az)
          | none => []) ++
         [Effect.packet (Packet.acknowledgeBlockChange sequence)]) |> Except.ok
  else
    Except.ok []

/-- The authentication payload assembled in `Server.connectPlayer`
(part_000:159). -/
structure AuthData where
  uuid : Option String
  username : String
  service : String
  secret : Option String
  authenticated : Bool

/-- The asynchronous outcome of `Server.authenticatePlayer`
(part_000:197). -/
structure AuthResult where
  auth : AuthData
  allow : Bool

/-- Observable actions of the server core during connection resolution.
The log line and the join chat broadcast of the allow branch carry no
payload here; only their presence and order matter to the claims. -/
inductive ServerEffect where
  | logConn
  | connDisconnect (reason : String)
  | changeWorld (uuid : String)
  | chatJoinMessage
  deriving DecidableEq

/-- The continuation of `Server.connectPlayer` once authentication
resolves (part_000:167-189).  `players` is the roster keyed by uuid.  On
allow, a player keyed by `auth.uuid ?? 'offline-' + username.toLowerCase()`
is added to the roster, its world join runs and the join message is
broadcast; on deny, the connection is disconnected with the literal
message and the roster is untouched. -/
def connectPlayerResolve (players : String → Bool) (result : AuthResult) :
    (String → Bool) × List ServerEffect :=
  if result.allow then
    let uuid := result.auth.uuid.getD ("offline-" ++ result.auth.username.toLower)
    (fun u => if u = uuid then true else players u,
     [ServerEffect.logConn, ServerEffect.changeWorld uuid,
      ServerEffect.chatJoinMessage])
  else
    (players, [ServerEffect.connDisconnect "You need to log in!"])

/-! Concrete fixtures used by the witnesses and counterexamples: a
16×16×16 world filled with internal block id 1, a translation table
mapping id 1 to block-state 5 and nothing else, a connected player in
that world whose break action always succeeds, and a pending delayed
action started at time 1000 on the in-bounds cell (5, 10, 5). -/

def tmapEx : Nat → Option Nat := fun b => if b = 1 then some 5 else none

def world16 : World :=
  { width := 16, height := 16, depth := 16, blockId := fun _ _ _ => 1,
    players := [], spawnX := 8, spawnY := 17, spawnZ := 8,
    spawnYaw := 0, spawnPitch := 0 }

def pEx : Player :=
  { numId := 1, world := world16, posX := 0, posY := 0, posZ := 0,
    yaw := 0, pitch := 0, isConnected := true, breakOk := fun _ _ _ => true }

def dEx : SessionData := { minePos := some (5, 10, 5), mineTime := some 1000 }

def itemMapEx : Nat → Option Nat := fun i => if i = 42 then some 7 else none

def invEx : Int → Nat := fun i => if i = 36 then 42 else 0

theorem mem_chunkRange {bound : Nat} {c : Int} :
    c ∈ chunkRange bound ↔ -1 ≤ c ∧ 16 * c < (bound : Int) := by
  unfold chunkRange
  rw [List.mem_map]
  constructor
  · rintro ⟨i, hi, rfl⟩
    rw [List.mem_range] at hi
    omega
  · rintro ⟨h1, h2⟩
    refine ⟨(c + 1).toNat, ?_, by omega⟩
    rw [List.mem_range]
    omega

theorem chunkRange_length (bound : Nat) :
    (chunkRange bound).length = (bound + 15) / 16 + 1 := by
  unfold chunkRange
  rw [List.length_map, List.length_range]

theorem chunkRange_getElem (bound : Nat) (i : Nat)
    (h : i < (chunkRange bound).length) :
    (chunkRange bound)[i] = (i : Int) - 1 := by
  unfold chunkRange at h ⊢
  rw [List.getElem_map, List.getElem_range]

theorem chunkRange_nodup (bound : Nat) : (chunkRange bound).Nodup :=
  List.Nodup.map (fun a b hab => by omega) (List.nodup_range _)

theorem chunkRange_headq (bound : Nat) :
    (chunkRange bound).head? = some (-1) := by
  unfold chunkRange
  rw [List.range_succ_eq_map, List.map_cons, List.head?_cons]
  norm_num

/-- C1 (amended): `sendWorld` streams exactly one chunk-column packet for
every column (cx, cz) with cx in [-1, ceil(width/16)] and cz in
[-1, ceil(depth/16)] — the streamed columns are pairwise distinct and
their set is exactly that range; each column packet carries its sections
bottom-up, the section at list index i holding the cells of chunk row
cy = i - 1, for a total of ceil(height/16) + 1 sections: one extra
all-boundary section below y = 0, but no extra section above the world's
vertical extent; and every out-of-bounds cell of any section holds the
boundary block-state. -/
theorem c1_chunk_stream (tmap : Nat → Option Nat) (world : World) :
    ((sendWorldColumns tmap world).map
        (fun p : ColumnPacket => (p.cx, p.cz))).Nodup ∧
    (∀ cx cz : Int,
       (cx, cz) ∈ (sendWorldColumns tmap world).map
           (fun p : ColumnPacket => (p.cx, p.cz)) ↔
         (-1 ≤ cx ∧ cx ≤ (((world.width + 15) / 16 : Nat) : Int) ∧
          -1 ≤ cz ∧ cz ≤ (((world.depth + 15) / 16 : Nat) : Int))) ∧
    (∀ p ∈ sendWorldColumns tmap world,
       p.sections.length = (world.height + 15) / 16 + 1 ∧
       (∀ (i : Nat) (hi : i < p.sections.length),
          p.sections.get ⟨i, hi⟩ =
            sectionBlocks tmap world p.cx ((i : Int) - 1) p.cz) ∧
       p.sections.head? = some (sectionBlocks tmap world p.cx (-1) p.cz) ∧
       (∀ x y z : Nat, y < 16 →
          sectionBlocks tmap world p.cx (-1) p.cz x y z = barrierId) ∧
       (∀ (cy : Int) (x y z : Nat),
          world.isInBounds (p.cx * 16 + x) (cy * 16 + y) (p.cz * 16 + z) =
            false →
          sectionBlocks tmap world p.cx cy p.cz x y z = barrierId)) := by
  have hmap : (sendWorldColumns tmap world).map
      (fun p : ColumnPacket => (p.cx, p.cz)) =
      (chunkRange (world.width + 16)).flatMap (fun cx =>
        (chunkRange (world.depth + 16)).map (fun cz => (cx, cz))) := by
    unfold sendWorldColumns
    rw [List.map_flatMap]
    congr 1
    funext cx
    rw [List.map_map]
    rfl
  refine ⟨?_, ?_, ?_⟩
  · rw [hmap]
    refine List.nodup_flatMap.2 ⟨?_, ?_⟩
    · intro cx _
      exact List.Nodup.map
        (fun a b hab => by simpa using congrArg Prod.snd hab)
        (chunkRange_nodup _)
    · refine List.Pairwise.imp ?_ (chunkRange_nodup (world.width + 16))
      intro a b hab x hxa hxb
      rw [List.mem_map] at hxa hxb
      obtain ⟨ca, _, rfl⟩ := hxa
      obtain ⟨cb, _, hEq⟩ := hxb
      injection hEq with h1 h2
      exact hab h1.symm
  · intro cx cz
    rw [hmap, List.mem_flatMap]
    constructor
    · rintro ⟨a, ha, hmem⟩
      rw [List.mem_map] at hmem
      obtain ⟨b, hb, hEq⟩ := hmem
      injection hEq with hEq1 hEq2
      subst hEq1
      subst hEq2
      rw [mem_chunkRange] at ha hb
      push_cast at ha hb ⊢
      refine ⟨ha.1, by omega, hb.1, by omega⟩
    · rintro ⟨h1, h2, h3, h4⟩
      push_cast at h2 h4
      refine ⟨cx, mem_chunkRange.2 ⟨h1, by push_cast; omega⟩,
        List.mem_map.2 ⟨cz, mem_chunkRange.2 ⟨h3, by push_cast; omega⟩, rfl⟩⟩
  · intro p hp
    unfold sendWorldColumns at hp
    rw [List.mem_flatMap] at hp
    obtain ⟨cx, hcx, hp⟩ := hp
    rw [List.mem_map] at hp
    obtain ⟨cz, hcz, rfl⟩ := hp
    refine ⟨?_, ?_, ?_, ?_, ?_⟩
    · show ((chunkRange world.height).map
        (fun cy => sectionBlocks tmap world cx cy cz)).length = _
      rw [List.length_map, chunkRange_length]
    · intro i hi
      show ((chunkRange world.height).map
        (fun cy => sectionBlocks tmap world cx cy cz)).get ⟨i, hi⟩ = _
      rw [List.get_eq_getElem, List.getElem_map, chunkRange_getElem]
    · show ((chunkRange world.height).map
        (fun cy => sectionBlocks tmap world cx cy cz)).head? = _
      rw [List.head?_map, chunkRange_headq]
      rfl
    · intro x y z hy
      have hoob : ¬ (world.isInBounds (cx * 16 + (x : Int))
          ((-1) * 16 + (y : Int)) (cz * 16 + (z : Int)) = true) := by
        simp only [World.isInBounds, decide_eq_true_eq]
        intro hcontra
        omega
      unfold sectionBlocks
      rw [if_neg hoob]
    · intro cy x y z hfalse
      have hoob : ¬ (world.isInBounds (cx * 16 + (x : Int))
          (cy * 16 + (y : Int)) (cz * 16 + (z : Int)) = true) := by
        intro hcontra
        rw [hfalse] at hcontra
        cases hcontra
      unfold sectionBlocks
      rw [if_neg hoob]

/-- C1 witness: in the 16×16×16 fixture world, the column (0, 0) is
among the streamed columns. -/
theorem c1_witness :
    ((0 : Int), (0 : Int)) ∈ (sendWorldColumns tmapEx world16).map
        (fun p : ColumnPacket => (p.cx, p.cz)) :=
  ((c1_chunk_stream tmapEx world16).2.1 0 0).mpr (by decide)

/-- C1 counterexample: in the 16×16×16 fixture world every column packet
carries 2 sections (the extra boundary section below plus the single
world section), not the ceil(height/16) + 2 = 3 sections that an extra
all-boundary section above the vertical extent would require, refuting
the claim as stated. -/
theorem c1_counterexample :
    ¬ ∀ p ∈ sendWorldColumns tmapEx world16,
        p.sections.length = (world16.height + 15) / 16 + 2 := by
  decide

/-- C2: a finish-dig (status 2) player-action at a position outside the
world's bounds queues exactly one set-block packet carrying `barrierId`
at that position and never invokes the block-break collaborator; and for
status 2 the pending delayed action is cleared whichever branch ran. -/
theorem c2_finish_dig_out_of_bounds (tmap : Nat → Option Nat) (p : Player)
    (d : SessionData) (now : Nat) (pos : Int × Int × Int)
    (hout : p.world.isInBounds pos.1 pos.2.1 pos.2.2 = false) :
    handlePlayerAction tmap (some p) d now 2 pos =
      ({ minePos := none, mineTime := none },
       [Effect.packet (Packet.setBlock pos.1 pos.2.1 pos.2.2 barrierId)]) ∧
    (∀ e ∈ (handlePlayerAction tmap (some p) d now 2 pos).2,
       ∀ x y z : Int, e ≠ Effect.blockBreak x y z) ∧
    (∀ player : Option Player,
       (handlePlayerAction tmap player d now 2 pos).1.minePos = none ∧
       (handlePlayerAction tmap player d now 2 pos).1.mineTime = none) := by
  have h1 : handlePlayerAction tmap (some p) d now 2 pos =
      ({ minePos := none, mineTime := none },
       [Effect.packet (Packet.setBlock pos.1 pos.2.1 pos.2.2 barrierId)]) := by
    simp [handlePlayerAction, hout]
  refine ⟨h1, ?_, ?_⟩
  · rw [h1]
    intro e he x y z
    simp only [List.mem_singleton] at he
    subst he
    simp
  · intro player
    cases player <;> exact ⟨rfl, rfl⟩

/-- C2 witness: in the 16×16×16 fixture world, a finish-dig at the
out-of-bounds position (20, 5, 5) forces the barrier block back and
clears the pending action. -/
theorem c2_witness :
    handlePlayerAction tmapEx (some pEx) dEx 1000 2 (20, 5, 5) =
      ({ minePos := none, mineTime := none },
       [Effect.packet (Packet.setBlock 20 5 5 barrierId)]) :=
  (c2_finish_dig_out_of_bounds tmapEx pEx dEx 1000 (20, 5, 5) (by decide)).1

/-- C4: when the pending delayed action is older than 200ms at tick time,
the tick resolves it with exactly the packets and collaborator calls of
the explicit finish-dig (status 2) handler (after the periodic keep-alive
prefix), leaves the cleared state the finish-dig handler leaves, and a
later tick on the resulting state does nothing beyond its keep-alive, so
the break resolves exactly once. -/
theorem c4_tick_matches_finish_dig (tmap : Nat → Option Nat)
    (player : Option Player) (d : SessionData) (pos : Int × Int × Int)
    (t now : Nat) (hpos : d.minePos = some pos) (ht : d.mineTime = some t)
    (ht0 : t ≠ 0) (hage : 200 < (now : Int) - (t : Int)) :
    ModernConnectionHandler.tick tmap player d now =
      ((handlePlayerAction tmap player d now 2 pos).1,
       ModernConnectionHandler.keepAliveEffects now ++
         (handlePlayerAction tmap player d now 2 pos).2) ∧
    (ModernConnectionHandler.tick tmap player d now).1 =
      { minePos := none, mineTime := none } ∧
    (∀ now2 : Nat,
       ModernConnectionHandler.tick tmap player
           (ModernConnectionHandler.tick tmap player d now).1 now2 =
         ((ModernConnectionHandler.tick tmap player d now).1,
          ModernConnectionHandler.keepAliveEffects now2)) := by
  obtain ⟨mp, mt⟩ := d
  simp only [SessionData.minePos] at hpos
  simp only [SessionData.mineTime] at ht
  subst hpos
  subst ht
  have h1 : ModernConnectionHandler.tick tmap player ⟨some pos, some t⟩ now =
      ((handlePlayerAction tmap player ⟨some pos, some t⟩ now 2 pos).1,
       ModernConnectionHandler.keepAliveEffects now ++
         (handlePlayerAction tmap player ⟨some pos, some t⟩ now 2 pos).2) := by
    simp only [ModernConnectionHandler.tick, handlePlayerAction]
    rw [if_pos ⟨ht0, hage⟩]
  refine ⟨h1, ?_, ?_⟩
  · rw [h1]
    rfl
  · intro now2
    rw [h1]
    rfl

/-- C4 witness: a dig started at time 1000 on the in-bounds cell
(5, 10, 5) and ticked at time 1250 with no finish packet resolves the
break (collaborator invocation plus world-event packet with the
translated pre-break state) and clears the pending action. -/
theorem c4_witness :
    ModernConnectionHandler.tick tmapEx (some pEx) dEx 1250 =
      ({ minePos := none, mineTime := none },
       [Effect.packet (Packet.keepAlive 1250), Effect.blockBreak 5 10 5,
        Effect.packet (Packet.worldEvent 2001 5 10 5 (some 5) false)]) := by
  have h := (c4_tick_matches_finish_dig tmapEx (some pEx) dEx (5, 10, 5) 1000
    1250 rfl rfl (by decide) (by decide)).1
  rw [h]
  decide

/-- C5: the position+rotation (0x14) and rotation-only (0x15) handlers
forward yaw as `((yaw + 180) % 360) / 360 * 256` and pitch as
`pitch / 360 * 256`, where `%` is the source language's remainder; for a
nonnegative dividend (every client yaw of at least -180 degrees) that
remainder coincides with the mathematical modulus. -/
theorem c5_rotation_renormalization (p : Player) (x y z yawDeg pitchDeg : ℚ) :
    handleSetPlayerPositionAndRotation (some p) x y z yawDeg pitchDeg =
      [Effect.move x y z (jsRem (yawDeg + 180) 360 / 360 * 256)
        (pitchDeg / 360 * 256)] ∧
    handleSetPlayerRotation (some p) yawDeg pitchDeg =
      [Effect.move p.posX p.posY p.posZ
        (jsRem (yawDeg + 180) 360 / 360 * 256) (pitchDeg / 360 * 256)] ∧
    (∀ q : ℚ, 0 ≤ q → jsRem q 360 = q - 360 * (⌊q / 360⌋ : ℚ)) := by
  refine ⟨rfl, rfl, ?_⟩
  intro q hq
  unfold jsRem jsTrunc
  rw [if_neg (not_lt.2 (by positivity))]

/-- C5 witness: yaw 180 and pitch 90 degrees are forwarded as the
256-unit angles 0 and 64, and on the nonnegative dividend 270 the
JavaScript remainder agrees with the floor-based modulus. -/
theorem c5_witness :
    (handleSetPlayerPositionAndRotation (some pEx) 1 2 3 180 90 =
      [Effect.move 1 2 3 0 64]) ∧
    jsRem 270 360 = 270 - 360 * ((⌊(270 : ℚ) / 360⌋ : ℤ) : ℚ) := by
  constructor
  · have h := (c5_rotation_renormalization pEx 1 2 3 180 90).1
    rw [h]
    norm_num [jsRem, jsTrunc]
  · exact (c5_rotation_renormalization pEx 1 2 3 180 90).2.2 270 (by norm_num)

/-- C6 (amended): translation of an internal block id with no entry in
the translation table is total but falls back to the block-state 0 (the
air state) — not to the reserved boundary state — both in
`ModernConnectionHandler.setBlock` and in the in-bounds cells encoded by
`sendWorld`. -/
theorem c6_unmapped_translation_is_zero (tmap : Nat → Option Nat)
    (x y z : Int) (b : Nat) (hb : tmap b = none) :
    ModernConnectionHandler.setBlock tmap x y z b =
      [Effect.packet (Packet.setBlock x y z 0)] ∧
    (∀ (world : World) (cx cy cz : Int) (px py pz : Nat),
       world.isInBounds (cx * 16 + px) (cy * 16 + py) (cz * 16 + pz) = true →
       world.blockId (cx * 16 + px) (cy * 16 + py) (cz * 16 + pz) = b →
       sectionBlocks tmap world cx cy cz px py pz = 0) := by
  constructor
  · unfold ModernConnectionHandler.setBlock
    rw [hb]
    rfl
  · intro world cx cy cz px py pz hin hbid
    simp [sectionBlocks, hin, hbid, hb]

/-- C6 witness: with an empty translation table, `setBlock` emits the
state 0. -/
theorem c6_witness :
    ModernConnectionHandler.setBlock (fun _ => none) 0 0 0 5 =
      [Effect.packet (Packet.setBlock 0 0 0 0)] :=
  (c6_unmapped_translation_is_zero (fun _ => none) 0 0 0 5 rfl).1

/-- C6 counterexample: the fallback state for an unmapped id is not the
reserved boundary block-state, refuting the claim as stated. -/
theorem c6_counterexample :
    ModernConnectionHandler.setBlock (fun _ => none) 0 0 0 5 ≠
      [Effect.packet (Packet.setBlock 0 0 0 barrierId)] := by
  decide

/-- C7: a denied authentication result leaves the player roster exactly
as it was and disconnects the connection with the login message; with no
player attached yet, the connection handler's disconnect sends a
disconnect packet and closes the transport. -/
theorem c7_deny_disconnects_without_roster_change (players : String → Bool)
    (r : AuthResult) (h : r.allow = false) :
    connectPlayerResolve players r =
      (players, [ServerEffect.connDisconnect "You need to log in!"]) ∧
    ModernConnectionHandler.disconnect none "You need to log in!" =
      [Effect.packet (Packet.disconnect (patchText "You need to log in!")),
       Effect.close] := by
  refine ⟨?_, rfl⟩
  simp [connectPlayerResolve, h]

/-- C7 witness: a concrete denied result against an empty roster. -/
theorem c7_witness :
    connectPlayerResolve (fun _ => false)
        { auth := { uuid := none, username := "steve", service := "Minecraft",
                    secret := none, authenticated := false }, allow := false } =
      ((fun _ => false), [ServerEffect.connDisconnect "You need to log in!"]) :=
  (c7_deny_disconnects_without_roster_change (fun _ => false)
    { auth := { uuid := none, username := "steve", service := "Minecraft",
                secret := none, authenticated := false }, allow := false } rfl).1

/-- C8: calling `sendWorld` on a session whose player has not been set
fails immediately with the thrown string and produces no packet list (the
guard is the first statement of the method, so nothing has been sent and
no state has been touched). -/
theorem c8_sendWorld_requires_player (tmap : Nat → Option Nat) (world : World) :
    sendWorld tmap none world = Except.error "Player is not set!" ∧
    ∀ ps : List Packet, sendWorld tmap none world ≠ Except.ok ps := by
  refine ⟨rfl, ?_⟩
  intro ps h
  exact Except.noConfusion h

/-- C8 witness: the fixture world. -/
theorem c8_witness :
    sendWorld tmapEx none world16 = Except.error "Player is not set!" :=
  (c8_sendWorld_requires_player tmapEx world16).1

/-- C9: the set-creative-mode-slot handler writes the packet's item id
(or 0 when no item is present) to the targeted slot and leaves every
other slot unchanged when the slot index is in [0, 50), and returns the
inventory entirely unchanged for any slot index outside that range. -/
theorem c9_creative_slot_frame (inventory : Int → Nat) (slot : Int)
    (present : Bool) (id : Nat) :
    (0 ≤ slot → slot < 50 →
       handleSetCreativeModeSlot inventory slot present id slot =
         (if present then id else 0) ∧
       (∀ i : Int, i ≠ slot →
          handleSetCreativeModeSlot inventory slot present id i = inventory i)) ∧
    (¬ (slot < 50 ∧ 0 ≤ slot) →
       handleSetCreativeModeSlot inventory slot present id = inventory) := by
  constructor
  · intro h0 h50
    unfold handleSetCreativeModeSlot
    rw [if_pos ⟨h50, h0⟩]
    exact ⟨by simp, fun i hi => by simp [hi]⟩
  · intro h
    unfold handleSetCreativeModeSlot
    rw [if_neg h]

/-- C9 witness: slot 3 receives the item id, slot 5 is untouched, and the
out-of-range slot 60 leaves the inventory unchanged. -/
theorem c9_witness :
    handleSetCreativeModeSlot (fun _ => 0) 3 true 7 3 = 7 ∧
    handleSetCreativeModeSlot (fun _ => 0) 3 true 7 5 = 0 ∧
    handleSetCreativeModeSlot (fun _ => 0) 60 true 7 = (fun _ => 0) := by
  refine ⟨?_, ?_, ?_⟩
  · exact ((c9_creative_slot_frame (fun _ => 0) 3 true 7).1
      (by decide) (by decide)).1
  · exact ((c9_creative_slot_frame (fun _ => 0) 3 true 7).1
      (by decide) (by decide)).2 5 (by decide)
  · exact (c9_creative_slot_frame (fun _ => 0) 60 true 7).2 (by decide)

/-- C3 (amended): for a use-item-on packet whose held item
`inventory[inventorySlot + 36]` is nonzero, the handler resolves the
adjacent cell by adding the `directions` entry of the face id to the
clicked position, invokes the block-place collaborator there when the
item maps to a placeable block and otherwise re-sends the server's
authoritative block at that cell, and in both of those cases sends an
acknowledge-block-change packet with the request's sequence number; when
the held item is zero (an emptied slot) the handler does nothing at all,
so no acknowledgement is sent in that case. -/
theorem c3_use_item_on (tmap itemMap : Nat → Option Nat) (p : Player)
    (inventory : Int → Nat) (inventorySlot : Int) (pos : Int × Int × Int)
    (faceId : Nat) (face : Int × Int × Int) (sequence : Nat)
    (hf : directions.get? faceId = some face)
    (hitem : inventory (inventorySlot + 36) ≠ 0) :
    handleUseItemOn tmap itemMap (some p) inventory inventorySlot pos faceId
        sequence =
      Except.ok
        ((match itemMap (inventory (inventorySlot + 36)) with
          | some numId =>
            [Effect.blockPlace (pos.1 + face.1) (pos.2.1 + face.2.1)
              (pos.2.2 + face.2.2) numId]
          | none =>
            ModernConnectionHandler.setBlock tmap (pos.1 + face.1)
              (pos.2.1 + face.2.1) (pos.2.2 + face.2.2)
              (p.world.blockId (pos.1 + face.1) (pos.2.1 + face.2.1)
                (pos.2.2 + face.2.2))) ++
         [Effect.packet (Packet.acknowledgeBlockChange sequence)]) := by
  simp only [handleUseItemOn, hf, if_pos hitem]
  cases hI : itemMap (inventory (inventorySlot + 36)) <;> simp [hI]

/-- C3 witness: the spec scenario — face id 1 (+Y) clicked on (2, 2, 2)
with a held item mapping to the placeable block 7 places at (2, 3, 2) and
acknowledges sequence number 7. -/
theorem c3_witness :
    handleUseItemOn tmapEx itemMapEx (some pEx) invEx 0 (2, 2, 2) 1 7 =
      Except.ok [Effect.blockPlace 2 3 2 7,
        Effect.packet (Packet.acknowledgeBlockChange 7)] := by
  have h := c3_use_item_on tmapEx itemMapEx pEx invEx 0 (2, 2, 2) 1 (0, 1, 0) 7
    rfl (by decide)
  rw [h]
  rfl

/-- C3 counterexample: with the held slot holding 0 (an emptied slot),
the handler emits no effects at all, in particular no
acknowledge-block-change packet, refuting the claim that every use-item-on
packet is acknowledged. -/
theorem c3_counterexample :
    ¬ ∃ effs : List Effect,
        handleUseItemOn tmapEx itemMapEx (some pEx) (fun _ => 0) 0 (2, 2, 2)
            1 7 = Except.ok effs ∧
        Effect.packet (Packet.acknowledgeBlockChange 7) ∈ effs := by
  rintro ⟨effs, heq, hmem⟩
  have h0 : handleUseItemOn tmapEx itemMapEx (some pEx) (fun _ => 0) 0
      (2, 2, 2) 1 7 = Except.ok [] := rfl
  rw [h0] at heq
  cases heq
  exact List.not_mem_nil _ hmem

/-- C10: the position-only handler (0x13) forwards the player's stored
yaw and pitch unchanged, and the rotation-only handler (0x15) forwards
the player's stored position unchanged. -/
theorem c10_movement_frame (p : Player) (x y z yawDeg pitchDeg : ℚ) :
    handleSetPlayerPosition (some p) x y z =
      [Effect.move x y z p.yaw p.pitch] ∧
    handleSetPlayerRotation (some p) yawDeg pitchDeg =
      [Effect.move p.posX p.posY p.posZ
        (jsRem (yawDeg + 180) 360 / 360 * 256) (pitchDeg / 360 * 256)] :=
  ⟨rfl, rfl⟩

end Cobblestone
